import Mathlib

/-!
Shallow embedding of the 3D Character Shop API backend (`main.py`, `schemas.py`)
and the behaviour of its document store, together with proofs of the
specification claims about the catalog listing, seeding and checkout logic.

Conventions of the embedding:
* The store handle `db` is `Option (List Doc)`: `none` models an unconfigured
  or unreachable store, `some docs` the `charactermodel` collection in its
  natural order.
* Prices are modelled by exact rationals standing for the Python floats.
* Fallible routes return `Except` values; the second component of each
  operation is the store state after the call.
* The increment of the `downloads` counter inside `checkout` is wrapped in a
  bare `try/except`; which individual updates raise is abstracted by a
  predicate `incFails` on document ids.
-/

namespace CharacterShop

/-- A document of the `charactermodel` collection, with the fields of the
`CharacterModel` schema of `schemas.py` plus the store-assigned `_id`
(rendered here as the string `id`). -/
structure Doc where
  id : String
  name : String
  description : Option String
  price : ℚ
  thumbnail_url : Option String
  preview_url : Option String
  tags : List String
  formats : List String
  polycount : Option String
  rigged : Bool
  animated : Bool
  rating : Option ℚ
  downloads : Int
  deriving DecidableEq

/-- One entry of the checkout request body (`CheckoutItem` in `main.py`). -/
structure CheckoutItem where
  id : String
  qty : Int
  deriving DecidableEq

/-- Hexadecimal digit test, as used by BSON object-id validation. -/
def isHexDigit (c : Char) : Bool :=
  c.isDigit || (('a' ≤ c) && (c ≤ 'f')) || (('A' ≤ c) && (c ≤ 'F'))

/-- The check `ObjectId.is_valid(i)` performed by `checkout` for a string
identifier: a 24-character hexadecimal string. -/
def isValidObjectId (s : String) : Bool :=
  (s.length == 24) && s.toList.all isHexDigit

/-- The dictionary comprehension `{i.id: max(1, i.qty) for i in payload.items}`
of `main.py` line 137, read at key `k`: the last binding of a key wins, and
each quantity is normalised to at least 1. -/
def qtyMap (items : List CheckoutItem) (k : String) : Option Int :=
  (items.reverse.find? (fun i => i.id == k)).map (fun i => max 1 i.qty)

/-- The lookup `qty_map.get(key, 1)` of `main.py` lines 148 and 158. -/
def qtyGet (items : List CheckoutItem) (k : String) : Int :=
  (qtyMap items k).getD 1

/-- The list `[ObjectId(i) for i in ids if ObjectId.is_valid(i)]` of
`main.py` line 141: the requested identifiers that are syntactically valid
store references, in request order. -/
def validIds (items : List CheckoutItem) : List String :=
  (items.map (fun i => i.id)).filter isValidObjectId

/-- Modelled from the spec: the store collaborator's batched find with an
`$in` filter over object ids (`main.py` line 141; the store layer
`database.py` is not among the sources).  Per spec section 4.2 step 3 it
returns the stored documents whose id is among the requested ones, in store
order. -/
def findByIds (docs : List Doc) (ids : List String) : List Doc :=
  docs.filter (fun d => ids.contains d.id)

/-- Python truthiness of an optional string: `None` and the empty string are
falsy, used by the `or` in `main.py` line 170 and the `if tag:` and `if q:`
guards of `list_models`. -/
def truthyStr : Option String → Bool
  | none => false
  | some s => !(s == "")

/-- The Python expression `a or b` on two optional strings
(`main.py` line 170). -/
def pyOrStr (a b : Option String) : Option String :=
  if truthyStr a then a else b

/-- A line of the receipt built by `checkout` (`main.py` lines 162-172). -/
structure LineItem where
  id : String
  name : String
  qty : Int
  price : ℚ
  line_total : ℚ
  download_links : List (Option String)
  deriving DecidableEq

/-- The receipt returned by `checkout` (`main.py` lines 174-179). -/
structure Receipt where
  order_id : String
  items : List LineItem
  subtotal : ℚ
  message : String
  deriving DecidableEq

/-- The error taxonomy of the checkout route. -/
inductive CheckoutError where
  | storeUnavailable
  | invalidRequest
  | notFound
  deriving DecidableEq

/-- The HTTP status code attached to each `HTTPException` of `checkout`. -/
def CheckoutError.status : CheckoutError → Nat
  | .storeUnavailable => 500
  | .invalidRequest => 400
  | .notFound => 404

/-- One receipt line for a resolved document
(`main.py` lines 157-172, loop body). -/
def mkLineItem (items : List CheckoutItem) (d : Doc) : LineItem :=
  let q := qtyGet items d.id
  { id := d.id
    name := d.name
    qty := q
    price := d.price
    line_total := d.price * (q : ℚ)
    download_links := [pyOrStr d.preview_url d.thumbnail_url] }

/-- The best-effort download-counter update loop of `main.py` lines 147-152:
every found document receives `{"$inc": {"downloads": inc}}` with its
resolved quantity, each update in its own `try/except` so that a failing
update (membership in `incFails`) leaves that document unchanged and the
loop continues.  Document ids are pairwise distinct in the store, so the
per-id `update_one` calls act on distinct documents. -/
def applyIncrements (docs : List Doc) (items : List CheckoutItem)
    (incFails : String → Bool) : List Doc :=
  docs.map (fun d =>
    if (validIds items).contains d.id && !(incFails d.id) then
      { d with downloads := d.downloads + qtyGet items d.id }
    else d)

/-- The `POST /checkout` route (`main.py` lines 128-179).  `incFails` says
which download-counter updates raise; `order_id` stands for the fresh
`uuid4` token.  Returns the route's outcome and the store state after the
call. -/
def checkout (store : Option (List Doc)) (items : List CheckoutItem)
    (incFails : String → Bool) (order_id : String) :
    Except CheckoutError Receipt × Option (List Doc) :=
  match store with
  | none => (Except.error CheckoutError.storeUnavailable, none)
  | some docs =>
    if items.isEmpty then
      (Except.error CheckoutError.invalidRequest, some docs)
    else
      let found := findByIds docs (validIds items)
      if found.isEmpty then
        (Except.error CheckoutError.notFound, some docs)
      else
        let line_items := found.map (mkLineItem items)
        (Except.ok
          { order_id := order_id
            items := line_items
            subtotal := (line_items.map (fun l => l.line_total)).sum
            message := "Order confirmed. Download links are ready." },
         some (applyIncrements docs items incFails))

/-- An atom of a regular-expression pattern: `.` or a literal character. -/
inductive RAtom where
  | dot
  | lit (c : Char)
  deriving DecidableEq

/-- A quantifier attached to a regex atom. -/
inductive RQuant where
  | one
  | star
  | plus
  | opt
  deriving DecidableEq

/-- The PCRE metacharacters: characters that do not stand for themselves in a
regex pattern. -/
def regexMeta : List Char :=
  ['\\', '.', '^', '$', '*', '+', '?', '(', ')', '[', ']', '\x7b', '\x7d', '|']

/-- A lexed regex symbol: an atom or a quantifier sign. -/
inductive RSym where
  | atom (a : RAtom)
  | quant (k : RQuant)
  deriving DecidableEq

/-- Lexer for the regex fragment the store's `$regex` operator is modelled
on: literal characters, backslash escapes, `.`, and the `*`, `+`, `?`
quantifier signs.  Patterns using other metacharacters are outside the
modelled fragment and are rejected. -/
def lexRegex : List Char → Option (List RSym)
  | [] => some []
  | c :: rest =>
    if c = '\\' then
      match rest with
      | [] => none
      | d :: rest2 => (lexRegex rest2).map (fun ss => RSym.atom (RAtom.lit d) :: ss)
    else
      let sym : Option RSym :=
        if c = '.' then some (RSym.atom RAtom.dot)
        else if c = '*' then some (RSym.quant RQuant.star)
        else if c = '+' then some (RSym.quant RQuant.plus)
        else if c = '?' then some (RSym.quant RQuant.opt)
        else if regexMeta.contains c then none
        else some (RSym.atom (RAtom.lit c))
      match sym with
      | none => none
      | some s => (lexRegex rest).map (fun ss => s :: ss)

/-- Attach each quantifier sign to the atom it follows; a quantifier with no
preceding atom is a syntax error. -/
def groupQuants : List RSym → Option (List (RAtom × RQuant))
  | [] => some []
  | RSym.quant _ :: _ => none
  | RSym.atom a :: RSym.quant k :: rest =>
    (groupQuants rest).map (fun ts => (a, k) :: ts)
  | RSym.atom a :: rest =>
    (groupQuants rest).map (fun ts => (a, RQuant.one) :: ts)

/-- Parse a regex pattern of the modelled fragment into quantified atoms. -/
def parseRegex (pat : List Char) : Option (List (RAtom × RQuant)) :=
  (lexRegex pat).bind groupQuants

/-- Case-insensitive match of one regex atom against one character, per the
`$options: "i"` flag the code always sets. -/
def atomMatch (a : RAtom) (c : Char) : Bool :=
  match a with
  | RAtom.dot => true
  | RAtom.lit d => d.toLower == c.toLower

/-- Backtracking matcher: does a prefix of `s` match the quantified atoms? -/
def matchHere : List (RAtom × RQuant) → List Char → Bool
  | [], _ => true
  | (a, RQuant.one) :: ts, s =>
    match s with
    | [] => false
    | c :: s2 => atomMatch a c && matchHere ts s2
  | (a, RQuant.opt) :: ts, s =>
    matchHere ts s ||
      (match s with
       | [] => false
       | c :: s2 => atomMatch a c && matchHere ts s2)
  | (a, RQuant.star) :: ts, s =>
    matchHere ts s ||
      (match s with
       | [] => false
       | c :: s2 => atomMatch a c && matchHere ((a, RQuant.star) :: ts) s2)
  | (a, RQuant.plus) :: ts, s =>
    match s with
    | [] => false
    | c :: s2 => atomMatch a c && matchHere ((a, RQuant.star) :: ts) s2
  termination_by ts s => (s.length, ts.length)

/-- Unanchored search: does the pattern match starting at some position? -/
def regexSearch (ts : List (RAtom × RQuant)) : List Char → Bool
  | [] => matchHere ts []
  | c :: s2 => matchHere ts (c :: s2) || regexSearch ts s2

/-- Modelled from the spec: the store collaborator's evaluation of the
`{"$regex": pat, "$options": "i"}` operator built by `list_models`
(`main.py` lines 106-109; the store layer `database.py` is not among the
sources): an unanchored, case-insensitive regex match of `pat` against the
field text.  Only the fragment of literal characters, escapes, `.`, `*`,
`+`, `?` is modelled; patterns outside it are treated as non-matching. -/
def regexFindCI (pat s : String) : Bool :=
  match parseRegex pat.toList with
  | some ts => regexSearch ts s.toList
  | none => false

/-- The filter document built by `list_models` (`main.py` lines 102-109):
an optional `{"tags": {"$in": [tag]}}` clause and an optional `$or` clause
of case-insensitive regexes on `name` and `description`. -/
structure Filt where
  tagIn : Option String
  qOr : Option String
  deriving DecidableEq

/-- The filter construction of `main.py` lines 102-109, with Python
truthiness on the `if tag:` and `if q:` guards. -/
def buildFilt (tag q : Option String) : Filt :=
  let f0 : Filt := { tagIn := none, qOr := none }
  let f1 := if truthyStr tag then { f0 with tagIn := tag } else f0
  if truthyStr q then { f1 with qOr := q } else f1

/-- Modelled from the spec: whether a stored document satisfies the filter,
per the store's documented operator semantics (`$in` on the `tags` array is
exact membership; `$or` of the two regex clauses; a regex clause on a
missing or null field does not match). -/
def matchesFilt (f : Filt) (d : Doc) : Bool :=
  (match f.tagIn with
   | none => true
   | some t => d.tags.contains t) &&
  (match f.qOr with
   | none => true
   | some pat =>
     regexFindCI pat d.name ||
       (match d.description with
        | some desc => regexFindCI pat desc
        | none => false))

/-- Modelled from the spec: `get_documents(collection, filt, limit)` of the
absent `database.py`, per spec section 4.1: an ordered sequence of up to
`limit` records matching the filter, in store order. -/
def get_documents (docs : List Doc) (f : Filt) (limit : Nat) : List Doc :=
  (docs.filter (matchesFilt f)).take limit

/-- The `GET /models` route (`main.py` lines 97-118); returns the rendered
documents and the store state after the call.  The `convert` step only
re-renders `_id` and timestamps, which the embedding already keeps as
strings, so documents are returned as they are. -/
def list_models (store : Option (List Doc)) (tag q : Option String)
    (limit : Nat) : List Doc × Option (List Doc) :=
  match store with
  | none => ([], none)
  | some docs => (get_documents docs (buildFilt tag q) limit, some docs)

/-- The result body of the `POST /seed` route. -/
structure SeedResult where
  seeded : Bool
  count : Option Nat
  message : Option String
  deriving DecidableEq

/-- The error of the seed route when the store is not configured. -/
inductive SeedError where
  | storeUnavailable
  deriving DecidableEq

/-- The three fixed demonstration documents of `seed_demo_models`
(`main.py` lines 46-84), with the store-assigned ids abstracted as
parameters. -/
def demo_items (id1 id2 id3 : String) : List Doc :=
  [{ id := id1
     name := "Neon Runner"
     description := some "Stylized cyberpunk runner with glowing accents"
     price := 29
     thumbnail_url := some "https://images.unsplash.com/photo-1542751371-adc38448a05e?w=800&q=80&auto=format&fit=crop"
     preview_url := some "https://youtu.be/dQw4w9WgXcQ"
     tags := ["cyberpunk", "stylized", "game-ready"]
     formats := ["FBX", "GLB"]
     polycount := some "28k tris"
     rigged := true
     animated := true
     rating := some 4.6
     downloads := 0 },
   { id := id2
     name := "Forest Guardian"
     description := some "Fantasy archer with cloak and light armor"
     price := 39
     thumbnail_url := some "https://images.unsplash.com/photo-1605721911519-3dfeb3be25e7?w=800&q=80&auto=format&fit=crop"
     preview_url := none
     tags := ["fantasy", "archer", "PBR"]
     formats := ["FBX", "OBJ"]
     polycount := some "32k tris"
     rigged := true
     animated := false
     rating := some 4.8
     downloads := 0 },
   { id := id3
     name := "Mech Scout"
     description := some "Compact sci-fi mech with emissive details"
     price := 24
     thumbnail_url := some "https://images.unsplash.com/photo-1517694712202-14dd9538aa97?w=800&q=80&auto=format&fit=crop"
     preview_url := none
     tags := ["sci-fi", "mech", "low-poly"]
     formats := ["GLB"]
     polycount := some "18k tris"
     rigged := false
     animated := false
     rating := some 4.2
     downloads := 0 }]

/-- The `POST /seed` route (`main.py` lines 38-89): counts the documents of
the collection; if any exist it reports `seeded: False` without writing,
otherwise it inserts the three demonstration documents (via the absent
store layer's `create_document`, modelled from the spec as an append in
order with fresh store-assigned ids `id1 id2 id3`) and reports the inserted
count. -/
def seed_demo_models (store : Option (List Doc)) (id1 id2 id3 : String) :
    Except SeedError SeedResult × Option (List Doc) :=
  match store with
  | none => (Except.error SeedError.storeUnavailable, none)
  | some docs =>
    if docs.length > 0 then
      (Except.ok
        { seeded := false
          count := none
          message := some "Collection already has documents" },
       some docs)
    else
      (Except.ok
        { seeded := true
          count := some (demo_items id1 id2 id3).length
          message := none },
       some (docs ++ demo_items id1 id2 id3))

/-- Case-insensitive prefix test on character lists, the building block of
the literal-substring reading of the spec. -/
def isPrefixCI : List Char → List Char → Bool
  | [], _ => true
  | _ :: _, [] => false
  | p :: ps, c :: cs => (p.toLower == c.toLower) && isPrefixCI ps cs

/-- Case-insensitive substring occurrence on character lists. -/
def containsCI : List Char → List Char → Bool
  | p, [] => isPrefixCI p []
  | p, c :: cs => isPrefixCI p (c :: cs) || containsCI p cs

/-- The literal reading of the spec for the free-text search: `pat` occurs
as a case-insensitive literal substring of `s`.  This is the property the
spec states for `q`; it is compared against the regex matching the code
actually requests. -/
def ciSubstring (pat s : String) : Bool :=
  containsCI pat.toList s.toList

/-- The download-reference choice as the spec words it (section 4.2 step 6):
the preview reference if present, else the thumbnail reference, else
absent.  Compared against the Python `or` of `main.py` line 170. -/
def firstRef (d : Doc) : Option String :=
  match d.preview_url with
  | some u => some u
  | none => d.thumbnail_url

/-- Schema conformance of the URL fields: a validated `HttpUrl`
(`schemas.py` lines 50-51) is never the empty string, so stored documents
carry nonempty references when the field is present. -/
def urlFieldsNonempty (d : Doc) : Bool :=
  (match d.preview_url with
   | some u => !(u == "")
   | none => true) &&
  (match d.thumbnail_url with
   | some u => !(u == "")
   | none => true)

/-- A fixed 24-character hexadecimal object id used in concrete instances. -/
def wId : String := "aaaaaaaaaaaaaaaaaaaaaaaa"

/-- A concrete stored document used in concrete instances of the theorems. -/
def wDoc : Doc :=
  { id := wId
    name := "Neon Runner"
    description := some "Stylized cyberpunk runner with glowing accents"
    price := 29
    thumbnail_url := some "https://images.unsplash.com/photo-1542751371-adc38448a05e?w=800&q=80&auto=format&fit=crop"
    preview_url := some "https://youtu.be/dQw4w9WgXcQ"
    tags := ["cyberpunk", "stylized", "game-ready"]
    formats := ["FBX", "GLB"]
    polycount := some "28k tris"
    rigged := true
    animated := true
    rating := none
    downloads := 0 }

/-- The receipt produced by a checkout of quantity 2 of `wDoc`. -/
def wReceipt : Receipt :=
  { order_id := "order"
    items := [{ id := wId
                name := "Neon Runner"
                qty := 2
                price := 29
                line_total := (29 : ℚ) * ((2 : Int) : ℚ)
                download_links := [some "https://youtu.be/dQw4w9WgXcQ"] }]
    subtotal := (29 : ℚ) * ((2 : Int) : ℚ) + 0
    message := "Order confirmed. Download links are ready." }

/-- A nonempty list has `isEmpty = false`. -/
theorem isEmpty_false_of_ne_nil {α : Type} {l : List α} (h : l ≠ []) :
    l.isEmpty = false := by
  cases l with
  | nil => exact absurd rfl h
  | cons a t => rfl

/-- If some stored document has a requested id, the batched lookup is
nonempty. -/
theorem findByIds_isEmpty_false (docs : List Doc) (ids : List String)
    (h : ∃ d ∈ docs, ids.contains d.id = true) :
    (findByIds docs ids).isEmpty = false := by
  obtain ⟨d, hd, hc⟩ := h
  have hm : d ∈ findByIds docs ids := List.mem_filter.2 ⟨hd, hc⟩
  cases hfd : findByIds docs ids with
  | nil => rw [hfd] at hm; exact absurd hm (List.not_mem_nil d)
  | cons a t => rfl

/-- Shape of a successful checkout: the receipt lines are the resolved
documents in store order and the new store is the incremented one. -/
theorem checkout_ok_shape (docs : List Doc) (items : List CheckoutItem)
    (incFails : String → Bool) (oid : String)
    (hne : items.isEmpty = false)
    (hf : (findByIds docs (validIds items)).isEmpty = false) :
    checkout (some docs) items incFails oid =
      (Except.ok
        { order_id := oid
          items := (findByIds docs (validIds items)).map (mkLineItem items)
          subtotal := (((findByIds docs (validIds items)).map
            (mkLineItem items)).map (fun l => l.line_total)).sum
          message := "Order confirmed. Download links are ready." },
       some (applyIncrements docs items incFails)) := by
  simp [checkout, hne, hf]

/-- C5: checkout of a request whose items list is empty fails with
`InvalidRequest`, whose HTTP status is 400, and produces no receipt. -/
theorem checkout_empty_items_invalidRequest (docs : List Doc)
    (incFails : String → Bool) (oid : String) :
    (checkout (some docs) [] incFails oid).1 =
      Except.error CheckoutError.invalidRequest ∧
    CheckoutError.invalidRequest.status = 400 :=
  ⟨rfl, rfl⟩

/-- C8: a catalog listing against an unavailable store returns an empty
sequence rather than an error, and the listing never changes the store
state. -/
theorem list_models_unavailable_empty (tag q : Option String) (limit : Nat)
    (store : Option (List Doc)) :
    (list_models none tag q limit).1 = [] ∧
    (list_models store tag q limit).2 = store := by
  refine ⟨rfl, ?_⟩
  cases store <;> rfl

/-- C10: whenever checkout fails with any of its errors, the store state is
completely unchanged. -/
theorem checkout_error_preserves_store (store : Option (List Doc))
    (items : List CheckoutItem) (incFails : String → Bool) (oid : String)
    (e : CheckoutError)
    (h : (checkout store items incFails oid).1 = Except.error e) :
    (checkout store items incFails oid).2 = store := by
  cases store with
  | none => rfl
  | some docs =>
    by_cases hi : items.isEmpty = true
    · simp [checkout, hi]
    · by_cases hf : (findByIds docs (validIds items)).isEmpty = true
      · simp [checkout, hi, hf]
      · exfalso
        rw [checkout_ok_shape docs items incFails oid
          (by simpa using hi) (by simpa using hf)] at h
        exact Except.noConfusion h

/-- Concrete instance of `checkout_error_preserves_store`. -/
theorem checkout_error_preserves_store_witness :
    (checkout (none : Option (List Doc)) [] (fun _ => false) "order").2 = none :=
  checkout_error_preserves_store none [] (fun _ => false) "order"
    CheckoutError.storeUnavailable rfl

/-- C9: seeding an empty collection inserts exactly the 3 fixed
demonstration items and reports `seeded: true` with count 3; seeding a
non-empty collection writes nothing and reports `seeded: false`; and a
second seed call never changes the store again, so no duplicates ever
arise. -/
theorem seed_demo_models_idempotent (docs : List Doc)
    (id1 id2 id3 id4 id5 id6 : String) :
    (docs = [] →
      (seed_demo_models (some docs) id1 id2 id3).1 =
        Except.ok { seeded := true, count := some 3, message := none } ∧
      (seed_demo_models (some docs) id1 id2 id3).2 =
        some (demo_items id1 id2 id3) ∧
      (demo_items id1 id2 id3).length = 3) ∧
    (docs ≠ [] →
      (seed_demo_models (some docs) id1 id2 id3).1 =
        Except.ok { seeded := false, count := none,
                    message := some "Collection already has documents" } ∧
      (seed_demo_models (some docs) id1 id2 id3).2 = some docs) ∧
    (seed_demo_models (seed_demo_models (some docs) id1 id2 id3).2
        id4 id5 id6).2 =
      (seed_demo_models (some docs) id1 id2 id3).2 := by
  cases docs with
  | nil => exact ⟨fun _ => ⟨rfl, rfl, rfl⟩, fun h => absurd rfl h, rfl⟩
  | cons d rest =>
    refine ⟨fun h => List.noConfusion h, fun _ => ⟨?_, ?_⟩, ?_⟩ <;>
      simp [seed_demo_models]

/-- Concrete instance of `seed_demo_models_idempotent`: seeding the empty
store, and seeding an already-populated store. -/
theorem seed_demo_models_idempotent_witness :
    (seed_demo_models (some ([] : List Doc)) "a" "b" "c").1 =
      Except.ok { seeded := true, count := some 3, message := none } ∧
    (seed_demo_models (some [wDoc]) "a" "b" "c").2 = some [wDoc] :=
  ⟨((seed_demo_models_idempotent [] "a" "b" "c" "d" "e" "f").1 rfl).1,
   ((seed_demo_models_idempotent [wDoc] "a" "b" "c" "d" "e" "f").2.1
     (List.cons_ne_nil wDoc [])).2⟩

/-- Every quantity read from the normalised map is at least 1. -/
theorem one_le_qtyGet (items : List CheckoutItem) (k : String) :
    1 ≤ qtyGet items k := by
  unfold qtyGet qtyMap
  cases h : items.reverse.find? (fun i => i.id == k) with
  | none => simp
  | some it => simp [le_max_left]

/-- C1: for every checkout request with nonempty items of which at least one
identifier resolves to a stored document, the receipt's subtotal is the sum
over its line items of price times quantity, and every quantity in the
receipt is at least 1, whatever was requested. -/
theorem checkout_subtotal_eq_sum_and_qty_pos (docs : List Doc)
    (items : List CheckoutItem) (incFails : String → Bool) (oid : String)
    (hne : items ≠ [])
    (hres : ∃ d ∈ docs, (validIds items).contains d.id = true) :
    ∃ r, (checkout (some docs) items incFails oid).1 = Except.ok r ∧
      r.subtotal = (r.items.map (fun l => l.price * (l.qty : ℚ))).sum ∧
      ∀ l ∈ r.items, 1 ≤ l.qty := by
  have hne2 := isEmpty_false_of_ne_nil hne
  have hf := findByIds_isEmpty_false docs (validIds items) hres
  rw [checkout_ok_shape docs items incFails oid hne2 hf]
  refine ⟨_, rfl, ?_, ?_⟩
  · show (((findByIds docs (validIds items)).map (mkLineItem items)).map
      (fun l => l.line_total)).sum = _
    rw [List.map_map, List.map_map]
    rfl
  · intro l hl
    obtain ⟨d, hd, rfl⟩ := List.mem_map.1 hl
    exact one_le_qtyGet items d.id

/-- Concrete instance of `checkout_subtotal_eq_sum_and_qty_pos`. -/
theorem checkout_subtotal_eq_sum_and_qty_pos_witness :
    ∃ r, (checkout (some [wDoc]) [⟨wId, 2⟩] (fun _ => false) "order").1 =
      Except.ok r ∧
      r.subtotal = (r.items.map (fun l => l.price * (l.qty : ℚ))).sum ∧
      ∀ l ∈ r.items, 1 ≤ l.qty :=
  checkout_subtotal_eq_sum_and_qty_pos [wDoc] [⟨wId, 2⟩] (fun _ => false)
    "order" (List.cons_ne_nil _ _) (by decide)

/-- C3: on a checkout whose request resolves at least one item, every
resolved document's downloads counter is incremented by its resolved
quantity when every increment succeeds, and the route's response does not
depend on which increments fail. -/
theorem checkout_increments_best_effort (docs : List Doc)
    (items : List CheckoutItem) (incFails : String → Bool) (oid : String)
    (hne : items ≠ [])
    (hres : ∃ d ∈ docs, (validIds items).contains d.id = true) :
    (checkout (some docs) items (fun _ => false) oid).2 =
      some (docs.map (fun d =>
        if (validIds items).contains d.id then
          { d with downloads := d.downloads + qtyGet items d.id }
        else d)) ∧
    (checkout (some docs) items incFails oid).1 =
      (checkout (some docs) items (fun _ => false) oid).1 := by
  have hne2 := isEmpty_false_of_ne_nil hne
  have hf := findByIds_isEmpty_false docs (validIds items) hres
  rw [checkout_ok_shape docs items incFails oid hne2 hf,
    checkout_ok_shape docs items (fun _ => false) oid hne2 hf]
  exact ⟨by simp [applyIncrements], rfl⟩

/-- Concrete instance of `checkout_increments_best_effort`: quantity 2 on a
document with `downloads = 0` leaves `downloads = 2`. -/
theorem checkout_increments_best_effort_witness :
    (checkout (some [wDoc]) [⟨wId, 2⟩] (fun _ => false) "order").2 =
      some [{ wDoc with downloads := 2 }] ∧
    (checkout (some [wDoc]) [⟨wId, 2⟩] (fun _ => true) "order").1 =
      (checkout (some [wDoc]) [⟨wId, 2⟩] (fun _ => false) "order").1 := by
  have h := checkout_increments_best_effort [wDoc] [⟨wId, 2⟩] (fun _ => true)
    "order" (List.cons_ne_nil _ _) (by decide)
  refine ⟨?_, h.2⟩
  rw [h.1]
  decide

/-- C4: a non-empty checkout request in which every identifier is either
syntactically malformed or absent from the store fails with `NotFound`
(HTTP 404); the malformed identifiers are dropped from the lookup without
any individual error. -/
theorem checkout_none_resolved_notFound (docs : List Doc)
    (items : List CheckoutItem) (incFails : String → Bool) (oid : String)
    (hne : items ≠ [])
    (hnores : ∀ it ∈ items,
      isValidObjectId it.id = false ∨ ∀ d ∈ docs, d.id ≠ it.id) :
    (checkout (some docs) items incFails oid).1 =
      Except.error CheckoutError.notFound ∧
    CheckoutError.notFound.status = 404 := by
  have hne2 := isEmpty_false_of_ne_nil hne
  have hfnil : findByIds docs (validIds items) = [] := by
    rw [show findByIds docs (validIds items) =
      docs.filter (fun d => (validIds items).contains d.id) from rfl]
    rw [List.filter_eq_nil_iff]
    intro d hd hcon
    have hmem : d.id ∈ validIds items := by
      simpa using hcon
    obtain ⟨hmap, hvalid⟩ := List.mem_filter.1 hmem
    obtain ⟨it, hit, hid⟩ := List.mem_map.1 hmap
    rcases hnores it hit with hbad | hall
    · rw [hid] at hbad
      rw [hvalid] at hbad
      exact Bool.noConfusion hbad
    · exact hall d hd hid.symm
  refine ⟨?_, rfl⟩
  simp [checkout, hne2, hfnil]

/-- Concrete instance of `checkout_none_resolved_notFound`: one malformed
identifier, no resolution, HTTP 404. -/
theorem checkout_none_resolved_notFound_witness :
    (checkout (some [wDoc]) [⟨"zz", 1⟩] (fun _ => false) "order").1 =
      Except.error CheckoutError.notFound ∧
    CheckoutError.notFound.status = 404 :=
  checkout_none_resolved_notFound [wDoc] [⟨"zz", 1⟩] (fun _ => false) "order"
    (List.cons_ne_nil _ _) (by decide)

/-- In a store whose document ids are pairwise distinct, filtering on one id
(possibly conjoined with a further condition the witness document meets)
yields exactly that document. -/
theorem filter_id_and_eq_single (docs : List Doc) (p : Doc → Bool)
    (i : String) (d0 : Doc)
    (hnodup : (docs.map (fun d => d.id)).Nodup)
    (hmem : d0 ∈ docs) (hid : d0.id = i) (hp : p d0 = true) :
    docs.filter (fun d => (d.id == i) && p d) = [d0] := by
  induction docs with
  | nil => exact absurd hmem (List.not_mem_nil d0)
  | cons a rest ih =>
    rw [List.map_cons, List.nodup_cons] at hnodup
    rcases List.mem_cons.1 hmem with h | h
    · subst h
      have hrest : rest.filter (fun d => (d.id == i) && p d) = [] := by
        rw [List.filter_eq_nil_iff]
        intro b hb hbeq
        rw [Bool.and_eq_true] at hbeq
        have hbi : b.id = i := by simpa using hbeq.1
        exact hnodup.1 (List.mem_map.2 ⟨b, hb, by rw [hbi, hid]⟩)
      rw [List.filter_cons_of_pos (by simp [hid, hp]), hrest]
    · have hane : ((a.id == i) && p a) = false := by
        have : (a.id == i) = false := by
          rw [beq_eq_false_iff_ne]
          intro heq
          exact hnodup.1 (List.mem_map.2 ⟨d0, h, by rw [hid, ← heq]⟩)
        rw [this, Bool.false_and]
      rw [List.filter_cons_of_neg (by simp [hane])]
      exact ih hnodup.2 h

/-- C2: when the same identifier appears in several request entries and
resolves to a stored document, the receipt holds exactly one line item for
it, and its quantity is the normalised quantity of the last entry with that
identifier, not the sum. -/
theorem checkout_duplicate_id_last_wins (docs : List Doc)
    (items : List CheckoutItem) (incFails : String → Bool) (oid : String)
    (i : String) (itLast : CheckoutItem)
    (hnodup : (docs.map (fun d => d.id)).Nodup)
    (hd : ∃ d ∈ docs, d.id = i)
    (hvalid : isValidObjectId i = true)
    (hdup : 2 ≤ (items.filter (fun it => it.id == i)).length)
    (hlast : items.reverse.find? (fun it => it.id == i) = some itLast) :
    ∃ r, (checkout (some docs) items incFails oid).1 = Except.ok r ∧
      (r.items.filter (fun l => l.id == i)).map (fun l => l.qty) =
        [max 1 itLast.qty] := by
  obtain ⟨d0, hd0, hd0i⟩ := hd
  have hfil : items.filter (fun it => it.id == i) ≠ [] := by
    intro hnil
    rw [hnil] at hdup
    simp at hdup
  obtain ⟨it0, hit0⟩ := List.exists_mem_of_ne_nil _ hfil
  have hit0id : it0.id = i := by simpa using List.of_mem_filter hit0
  have hit0mem : it0 ∈ items := List.mem_of_mem_filter hit0
  have hiv : i ∈ validIds items :=
    List.mem_filter.2 ⟨List.mem_map.2 ⟨it0, hit0mem, hit0id⟩, hvalid⟩
  have hne : items ≠ [] := by
    intro h
    rw [h] at hit0mem
    exact List.not_mem_nil it0 hit0mem
  have hcond : (validIds items).contains d0.id = true := by
    rw [hd0i]
    exact List.elem_eq_true_of_mem hiv
  have hne2 := isEmpty_false_of_ne_nil hne
  have hf := findByIds_isEmpty_false docs (validIds items) ⟨d0, hd0, hcond⟩
  have hsingle : (findByIds docs (validIds items)).filter
      ((fun l => l.id == i) ∘ mkLineItem items) = [d0] := by
    rw [show findByIds docs (validIds items) =
      docs.filter (fun d => (validIds items).contains d.id) from rfl]
    rw [List.filter_filter]
    exact filter_id_and_eq_single docs _ i d0 hnodup hd0 hd0i
      (by rw [hd0i]; exact List.elem_eq_true_of_mem hiv)
  rw [checkout_ok_shape docs items incFails oid hne2 hf]
  refine ⟨_, rfl, ?_⟩
  show ((((findByIds docs (validIds items)).map (mkLineItem items)).filter
    (fun l => l.id == i)).map (fun l => l.qty)) = [max 1 itLast.qty]
  rw [List.filter_map]
  rw [hsingle]
  show [qtyGet items d0.id] = [max 1 itLast.qty]
  rw [hd0i]
  unfold qtyGet qtyMap
  rw [hlast]
  rfl

/-- Concrete instance of `checkout_duplicate_id_last_wins`: the identifier
appears with quantities 1 then 3 and the single resulting line has
quantity 3. -/
theorem checkout_duplicate_id_last_wins_witness :
    ∃ r, (checkout (some [wDoc]) [⟨wId, 1⟩, ⟨wId, 3⟩] (fun _ => false)
      "order").1 = Except.ok r ∧
      (r.items.filter (fun l => l.id == wId)).map (fun l => l.qty) =
        [max 1 (3 : Int)] :=
  checkout_duplicate_id_last_wins [wDoc] [⟨wId, 1⟩, ⟨wId, 3⟩] (fun _ => false)
    "order" wId ⟨wId, 3⟩ (by decide) (by decide) (by decide) (by decide) rfl

/-- Under the URL schema invariant, the Python `a or b` of `main.py` line
170 computes exactly the spec's first-present reference choice. -/
theorem pyOrStr_eq_firstRef (d : Doc) (h : urlFieldsNonempty d = true) :
    pyOrStr d.preview_url d.thumbnail_url = firstRef d := by
  unfold urlFieldsNonempty at h
  cases hp : d.preview_url with
  | none => simp [pyOrStr, truthyStr, firstRef, hp]
  | some u =>
    rw [hp] at h
    rw [Bool.and_eq_true] at h
    have h1 : (!(u == "")) = true := h.1
    simp [pyOrStr, truthyStr, firstRef, hp, h1]

/-- The line items of any successful checkout are the resolved documents
rendered in store order. -/
theorem checkout_ok_receipt (docs : List Doc) (items : List CheckoutItem)
    (incFails : String → Bool) (oid : String) (r : Receipt)
    (hok : (checkout (some docs) items incFails oid).1 = Except.ok r) :
    r.items = (findByIds docs (validIds items)).map (mkLineItem items) := by
  by_cases hi : items.isEmpty = true
  · rw [show (checkout (some docs) items incFails oid).1 =
      Except.error CheckoutError.invalidRequest from by simp [checkout, hi]]
      at hok
    exact Except.noConfusion hok
  · by_cases hfe : (findByIds docs (validIds items)).isEmpty = true
    · rw [show (checkout (some docs) items incFails oid).1 =
        Except.error CheckoutError.notFound from by simp [checkout, hi, hfe]]
        at hok
      exact Except.noConfusion hok
    · rw [checkout_ok_shape docs items incFails oid (by simpa using hi)
        (by simpa using hfe)] at hok
      simp only [Except.ok.injEq] at hok
      rw [← hok]

/-- C6: every line of a checkout receipt over schema-conformant documents
carries exactly one download reference: the resolved document's preview
reference if present, else its thumbnail reference, else no reference. -/
theorem checkout_line_download_reference (docs : List Doc)
    (items : List CheckoutItem) (incFails : String → Bool) (oid : String)
    (r : Receipt)
    (hurls : ∀ d ∈ docs, urlFieldsNonempty d = true)
    (hok : (checkout (some docs) items incFails oid).1 = Except.ok r) :
    ∀ l ∈ r.items, ∃ d ∈ docs, d.id = l.id ∧
      l.download_links = [firstRef d] := by
  intro l hl
  rw [checkout_ok_receipt docs items incFails oid r hok] at hl
  obtain ⟨d, hdf, rfl⟩ := List.mem_map.1 hl
  have hdd : d ∈ docs := List.mem_of_mem_filter hdf
  refine ⟨d, hdd, rfl, ?_⟩
  show [pyOrStr d.preview_url d.thumbnail_url] = [firstRef d]
  rw [pyOrStr_eq_firstRef d (hurls d hdd)]

/-- Concrete instance of `checkout_line_download_reference`, read off at the
single line of the concrete receipt. -/
theorem checkout_line_download_reference_witness :
    ∃ d ∈ [wDoc], d.id = wId ∧
      [some "https://youtu.be/dQw4w9WgXcQ"] = [firstRef d] := by
  have h := checkout_line_download_reference [wDoc] [⟨wId, 2⟩] (fun _ => false)
    "order" wReceipt (by decide) rfl
  exact h _ (List.mem_cons_self _ _)

/-- A pattern free of metacharacters lexes to its characters as literal
atoms. -/
theorem lexRegex_nometa (cs : List Char) (h : ∀ c ∈ cs, c ∉ regexMeta) :
    lexRegex cs = some (cs.map (fun c => RSym.atom (RAtom.lit c))) := by
  induction cs with
  | nil => rfl
  | cons c rest ih =>
    have hc0 := h c (List.mem_cons_self c rest)
    have hc := hc0
    simp only [regexMeta, List.mem_cons, List.mem_singleton, not_or] at hc
    obtain ⟨hb, hdot, _, _, hstar, hplus, hq, _⟩ := hc
    rw [lexRegex.eq_def]
    simp [hb, hdot, hstar, hplus, hq, hc0,
      ih (fun x hx => h x (List.mem_cons_of_mem c hx))]

/-- A symbol stream of bare atoms groups to those atoms, each quantified
once. -/
theorem groupQuants_atoms (cs : List Char) :
    groupQuants (cs.map (fun c => RSym.atom (RAtom.lit c))) =
      some (cs.map (fun c => (RAtom.lit c, RQuant.one))) := by
  induction cs with
  | nil => rfl
  | cons c rest ih =>
    cases rest with
    | nil => rfl
    | cons c2 rest2 =>
      rw [List.map_cons]
      rw [show groupQuants (RSym.atom (RAtom.lit c) ::
        (c2 :: rest2).map (fun x => RSym.atom (RAtom.lit x))) =
        (groupQuants ((c2 :: rest2).map
          (fun x => RSym.atom (RAtom.lit x)))).map
          (fun ts => (RAtom.lit c, RQuant.one) :: ts) from rfl]
      rw [ih]
      rfl

/-- Matching a sequence of once-quantified literal atoms is exactly the
case-insensitive prefix test. -/
theorem matchHere_lits (cs : List Char) (s : List Char) :
    matchHere (cs.map (fun c => (RAtom.lit c, RQuant.one))) s =
      isPrefixCI cs s := by
  induction cs generalizing s with
  | nil => cases s <;> simp [matchHere, isPrefixCI]
  | cons c rest ih =>
    cases s with
    | nil => simp [matchHere, isPrefixCI]
    | cons x xs => simp [matchHere, isPrefixCI, atomMatch, ih]

/-- Unanchored search with once-quantified literal atoms is exactly the
case-insensitive substring test. -/
theorem regexSearch_lits (cs : List Char) (s : List Char) :
    regexSearch (cs.map (fun c => (RAtom.lit c, RQuant.one))) s =
      containsCI cs s := by
  induction s with
  | nil => simp [regexSearch, containsCI, matchHere_lits]
  | cons x xs ih => simp [regexSearch, containsCI, matchHere_lits, ih]

/-- For a free-text term without regex metacharacters, the store's regex
match coincides with the literal case-insensitive substring reading. -/
theorem regexFindCI_nometa (q s : String)
    (h : ∀ c ∈ q.toList, c ∉ regexMeta) :
    regexFindCI q s = ciSubstring q s := by
  unfold regexFindCI parseRegex ciSubstring
  rw [lexRegex_nometa q.toList h]
  rw [show (some (q.toList.map (fun c => RSym.atom (RAtom.lit c)))).bind
    groupQuants =
    groupQuants (q.toList.map (fun c => RSym.atom (RAtom.lit c))) from rfl]
  rw [groupQuants_atoms]
  exact regexSearch_lits q.toList s.toList

/-- C7 (amended): with a free-text parameter `q`, the returned items are the
stored ones (up to `limit`) whose name or description matches `q`
interpreted as a case-insensitive regular expression; when `q` is free of
regex metacharacters this coincides with the literal case-insensitive
substring reading. -/
theorem list_models_q_nometa_substring (docs : List Doc) (q : String)
    (limit : Nat)
    (hq : q ≠ "")
    (hmeta : ∀ c ∈ q.toList, c ∉ regexMeta)
    (hlimit : docs.length ≤ limit) :
    ∀ d : Doc, d ∈ (list_models (some docs) none (some q) limit).1 ↔
      d ∈ docs ∧ (ciSubstring q d.name = true ∨
        ∃ desc, d.description = some desc ∧ ciSubstring q desc = true) := by
  intro d
  have hq2 : (q == "") = false := by
    rw [beq_eq_false_iff_ne]
    exact hq
  have hfilt : buildFilt none (some q) = { tagIn := none, qOr := some q } := by
    simp [buildFilt, truthyStr, hq2]
  have hmf : matchesFilt { tagIn := none, qOr := some q } d =
      (ciSubstring q d.name ||
        (match d.description with
         | some desc => ciSubstring q desc
         | none => false)) := by
    simp only [matchesFilt, Bool.true_and]
    rw [regexFindCI_nometa q d.name hmeta]
    cases hdesc : d.description with
    | none => rfl
    | some desc => simp [regexFindCI_nometa q desc hmeta]
  show d ∈ get_documents docs (buildFilt none (some q)) limit ↔ _
  rw [hfilt]
  unfold get_documents
  rw [List.take_of_length_le (le_trans (List.length_filter_le _ _) hlimit)]
  rw [List.mem_filter, hmf]
  constructor
  · rintro ⟨hd, hor⟩
    rw [Bool.or_eq_true] at hor
    refine ⟨hd, ?_⟩
    rcases hor with h1 | h2
    · exact Or.inl h1
    · cases hdesc : d.description with
      | none => rw [hdesc] at h2; exact Bool.noConfusion h2
      | some desc => rw [hdesc] at h2; exact Or.inr ⟨desc, rfl, h2⟩
  · rintro ⟨hd, h1 | ⟨desc, hdesc, h2⟩⟩
    · refine ⟨hd, ?_⟩
      rw [Bool.or_eq_true]
      exact Or.inl h1
    · refine ⟨hd, ?_⟩
      rw [Bool.or_eq_true]
      right
      rw [hdesc]
      exact h2

/-- Concrete instance of `list_models_q_nometa_substring`: the documented
example, q = "neon" against "Neon Runner". -/
theorem list_models_q_nometa_substring_witness :
    wDoc ∈ (list_models (some [wDoc]) none (some "neon") 50).1 ↔
      wDoc ∈ [wDoc] ∧ (ciSubstring "neon" wDoc.name = true ∨
        ∃ desc, wDoc.description = some desc ∧
          ciSubstring "neon" desc = true) :=
  list_models_q_nometa_substring [wDoc] "neon" 50 (by decide) (by decide)
    (by decide) wDoc

/-- C7 counterexample: with q = "." the item is returned even though "."
does not occur literally (case-insensitively) in its name or its
description: the code hands q to the store as a regex pattern, so "."
matches any character. -/
theorem list_models_q_literal_counterexample :
    (list_models (some [wDoc]) none (some ".") 50).1 = [wDoc] ∧
    ciSubstring "." wDoc.name = false ∧
    wDoc.description = some "Stylized cyberpunk runner with glowing accents" ∧
    ciSubstring "." "Stylized cyberpunk runner with glowing accents" =
      false := by
  refine ⟨?_, by decide, rfl, by decide⟩
  have hparse : parseRegex (".").toList = some [(RAtom.dot, RQuant.one)] := rfl
  have hm : regexFindCI "." "Neon Runner" = true := by
    unfold regexFindCI
    rw [hparse]
    show regexSearch [(RAtom.dot, RQuant.one)] ("Neon Runner").toList = true
    rw [show ("Neon Runner").toList =
      'N' :: "eon Runner".toList from rfl]
    simp [regexSearch, matchHere, atomMatch]
  have hm2 : regexFindCI "." wDoc.name = true := hm
  have hpred : matchesFilt { tagIn := none, qOr := some "." } wDoc = true := by
    simp [matchesFilt, hm2]
  have hfilt : buildFilt none (some ".") =
      { tagIn := none, qOr := some "." } := rfl
  show get_documents [wDoc] (buildFilt none (some ".")) 50 = [wDoc]
  rw [hfilt]
  unfold get_documents
  rw [List.filter_cons_of_pos hpred]
  exact List.take_of_length_le (by decide)

end CharacterShop
